import Mathlib

/-!
# Verification of the ENGINE streaming/strategy core

This file gives a shallow embedding of the deduplication, volume-delta
reconstruction, batch persistence, subscription routing, swing detection,
confluence scoring and exit management logic of the ENGINE repository
(`backend/core/data_engine.py`, `backend/symmetry_engine/strategy.py`,
`backend/symmetry_engine/main.py`, `backend/brain/SymmetryAnalyzer.py`),
and proves or refutes the specified behavioral properties over it.

Prices, volumes and derived quantities are modelled as exact rationals
(the Python source uses floats); timestamps as integers.  Python `dict`s
keyed by strings are modelled as association lists where an update
prepends the new binding and lookup returns the first match.
-/

namespace Engine

/-- `safe_float(v)` from `core/utils.py` (not part of the snapshot) applied to
an optional field: a missing value becomes `0`. -/
def safeFloat (v : Option ℚ) : ℚ := v.getD 0

/-- Truncation toward zero, the behavior of Python `int()` on a float.
Used for `safe_int` on computed deltas. -/
def truncToInt (q : ℚ) : ℤ := if 0 ≤ q then ⌊q⌋ else -⌊-q⌋

/-- Python `a % b` on nonnegative floats (used only in the clamp branch of the
delta computation): `a - b * ⌊a / b⌋`. -/
def qmod (a b : ℚ) : ℚ := a - b * ⌊a / b⌋

/-- Python `max(a, b)` on rationals, kept kernel-computable. -/
def qmax (a b : ℚ) : ℚ := if a ≤ b then b else a

/-- Python `min(a, b)` on rationals, kept kernel-computable. -/
def qmin (a b : ℚ) : ℚ := if b ≤ a then b else a

/-- Python `abs(a)` on rationals, kept kernel-computable. -/
def qabs (a : ℚ) : ℚ := if a < 0 then -a else a

/-- Association-list update with Python-`dict` semantics: the new binding
shadows any older one. -/
def aset (k : String) (v : α) (l : List (String × α)) : List (String × α) :=
  (k, v) :: l

/-! ## Volume-delta reconstruction (`backend/core/data_engine.py`, `on_message`)

Translated from lines 266-288: for each tracker key the engine keeps the last
cumulative volume `prev`; on a new cumulative reading `curr`,

```
if prev_vol > 0:
    if is_candle_source and curr_vol < prev_vol * 0.5:
        delta_vol = curr_vol
    else:
        delta_vol = max(0, curr_vol - prev_vol)
else:
    delta_vol = 0
latest_total_volumes[tracker_key] = curr_vol
```
-/
def volDelta (isCandleSource : Bool) (prev curr : ℚ) : ℚ :=
  if 0 < prev then
    if isCandleSource = true ∧ curr < prev * (1/2) then curr
    else qmax 0 (curr - prev)
  else 0

/-- The sequence of deltas produced by feeding `readings` one at a time into
the tracker whose stored cumulative total starts at `prev` (the stored total
is overwritten with the current reading after every step). -/
def volDeltas (isCandleSource : Bool) : ℚ → List ℚ → List ℚ
  | _, [] => []
  | prev, curr :: rest =>
      volDelta isCandleSource prev curr :: volDeltas isCandleSource curr rest

/-- Deltas for a fresh tracker: `latest_total_volumes.get(tracker_key, 0)`
starts at `0`. -/
def volDeltasFromStart (isCandleSource : Bool) (readings : List ℚ) : List ℚ :=
  volDeltas isCandleSource 0 readings

/-! ## Tick records and engine state -/

/-- A normalized tick as appended to the persistence buffer (the fields of
`feed_datum` that the embedded logic reads or writes). -/
structure Tick where
  key : String
  price : ℚ
  ltq : ℤ
  tsMs : ℤ
deriving DecidableEq

/-- The mutable state of the data engine that the embedded message handler
touches: `last_processed_tick`, `latest_total_volumes` and `tick_buffer`. -/
structure DEState where
  lastProcessed : List (String × ℤ × ℚ × ℚ)
  volumes : List (String × ℚ)
  buffer : List Tick
deriving DecidableEq

/-- A quote-session feed entry (`feeds[inst_key]` in `on_message`). -/
structure QuoteFeed where
  lastPrice : ℚ
  tvVolume : Option ℚ
  upstoxVolume : Option ℚ
  tsMs : ℤ
deriving DecidableEq

/-- Timestamp normalization from `on_message` lines 246-248:
`if 0 < ts_val < 10000000000: ts_val *= 1000`. -/
def normTs (ts : ℤ) : ℤ := if 0 < ts ∧ ts < 10000000000 then ts * 1000 else ts

/-- Delta clamp from `on_message` lines 292-294: any delta above 5,000,000 is
replaced by `100` for indices and by `delta % 10000` otherwise. -/
def clampDelta (isIndex : Bool) (delta : ℚ) : ℚ :=
  if 5000000 < delta then (if isIndex then 100 else qmod delta 10000) else delta

/-- Core of the per-feed loop of `on_message` (lines 239-297) shared by quote
and chart-fallback ticks, given that deduplication already passed: computes the
volume delta on the instrument's tracker, applies the index heartbeat special
case and the clamp, and appends the resulting tick to the persistence buffer.
`isIndex` stands for `inst_key in UPSTOX_INDEX_MAP or "INDEX" in
inst_key.upper()` (the map lives in the external `config`). -/
def processFeedBody (isIndex : Bool) (isCandleSource : Bool) (interval : String)
    (inst : String) (f : QuoteFeed) (st : DEState) : DEState × Tick :=
  let tsVal := normTs f.tsMs
  let tracker := if isCandleSource then inst ++ "_" ++ interval ++ "_candle"
                 else inst ++ "_daily"
  let currVol := f.tvVolume.orElse fun _ => f.upstoxVolume
  let (delta0, volumes') :=
    match currVol with
    | some cv =>
        (volDelta isCandleSource ((st.volumes.lookup tracker).getD 0) cv,
         aset tracker cv st.volumes)
    | none => ((0 : ℚ), st.volumes)
  let delta1 :=
    if isIndex = true ∧ delta0 ≤ 0 ∧ isCandleSource = true then
      match st.lastProcessed.lookup inst with
      | some (pts, _, _) => if tsVal ≠ pts then 1 else delta0
      | none => 1
    else delta0
  let delta2 := clampDelta isIndex delta1
  let tick : Tick := ⟨inst, f.lastPrice, truncToInt delta2, tsVal⟩
  (⟨st.lastProcessed, volumes', st.buffer ++ [tick]⟩, tick)

/-- Quote-feed deduplication check (`on_message` lines 233-235): a quote is
redundant iff its timestamp, price and cumulative volume all equal the
stored `last_processed_tick` entry for the instrument. -/
def isDupQuote (inst : String) (f : QuoteFeed) (st : DEState) : Bool :=
  match st.lastProcessed.lookup inst with
  | some (pts, pprice, pvol) =>
      f.tsMs = pts ∧ f.lastPrice = pprice ∧ safeFloat f.tvVolume = pvol
  | none => false

/-- Processing of one standard quote feed entry (`on_message` lines 225-297
for `source != 'tv_chart_fallback'`): deduplicate against
`last_processed_tick`, record the new state, then run the shared body.
Returns the new state and the emitted tick, or `none` when the tick was
skipped as redundant. -/
def processQuote (isIndex : Bool) (inst : String) (f : QuoteFeed)
    (st : DEState) : DEState × Option Tick :=
  if isDupQuote inst f st then (st, none)
  else
    let st1 : DEState :=
      ⟨aset inst (f.tsMs, f.lastPrice, safeFloat f.tvVolume) st.lastProcessed,
       st.volumes, st.buffer⟩
    let (st2, tick) := processFeedBody isIndex false "1" inst f st1
    (st2, some tick)

/-- Synthetic-tick generation from a chart snapshot (`on_message` lines
196-214 followed by the per-feed loop): the last OHLCV bar of the snapshot is
turned into a candle-sourced tick if its timestamp, price or volume changed
against `last_processed_tick`; the dedup state is updated *before* the
per-feed loop runs.  `barTs` is the bar timestamp in seconds, multiplied by
1000 on ingestion (line 199). -/
def processChartBar (isIndex : Bool) (inst : String) (interval : String)
    (barTs : ℤ) (closePrice volume : ℚ) (st : DEState) :
    DEState × Option Tick :=
  let tsMs := barTs * 1000
  let changed : Bool :=
    match st.lastProcessed.lookup inst with
    | some (pts, pprice, pvol) => tsMs ≠ pts ∨ closePrice ≠ pprice ∨ volume ≠ pvol
    | none => true
  if changed then
    let st1 : DEState :=
      ⟨aset inst (tsMs, closePrice, volume) st.lastProcessed, st.volumes, st.buffer⟩
    let f : QuoteFeed := ⟨closePrice, some volume, none, tsMs⟩
    let (st2, tick) := processFeedBody isIndex true interval inst f st1
    (st2, some tick)
  else (st, none)

/-! ## Batch persister (`backend/core/data_engine.py`, `flush_tick_buffer`) -/

/-- Result of one flush invocation. -/
structure FlushResult where
  persisted : List Tick
  buffer : List Tick
  attempts : ℕ
deriving DecidableEq

/-- Translated from `flush_tick_buffer` (lines 99-123): the live buffer is
swapped out under the lock; insertion is attempted up to 3 times (`dbOk n`
tells whether the `n`-th attempt succeeds, a 1-second sleep separates
attempts); on final failure the swapped-out batch is prepended back onto the
live buffer.  `arrivals` are the ticks ingestion appended to the live buffer
while the flush worker was retrying. -/
def flush_tick_buffer (buf : List Tick) (dbOk : ℕ → Bool)
    (arrivals : List Tick) : FlushResult :=
  if buf = [] then ⟨[], arrivals, 0⟩
  else if dbOk 0 then ⟨buf, arrivals, 1⟩
  else if dbOk 1 then ⟨buf, arrivals, 2⟩
  else if dbOk 2 then ⟨buf, arrivals, 3⟩
  else ⟨[], buf ++ arrivals, 3⟩

/-! ## Strategy engine (`backend/symmetry_engine/strategy.py`) -/

/-- An OHLC candle (`{'open': o, 'high': h, 'low': l, 'close': c}` in the
candle-history dicts; `open` is a Lean keyword, hence the short field names,
which also match the `o/h/l/c` columns of the analyzer's data frames). -/
structure Candle where
  o : ℚ
  h : ℚ
  l : ℚ
  c : ℚ
deriving DecidableEq, Inhabited

/-- The last `n` elements of a list (`df.tail(n)` / `list[-n:]`). -/
def lastN (n : ℕ) (l : List α) : List α := l.drop (l.length - n)

/-- Maximum of a list of rationals (`series.max()`); `0` on the empty list,
which the embedded callers never hit. -/
def listMax : List ℚ → ℚ
  | [] => 0
  | x :: xs => xs.foldl qmax x

/-- Minimum of a list of rationals (`series.min()`). -/
def listMin : List ℚ → ℚ
  | [] => 0
  | x :: xs => xs.foldl qmin x

/-- True range of a candle against the previous close:
`max(h - l, abs(h - pc), abs(l - pc))`. -/
def trueRange (h l pc : ℚ) : ℚ := qmax (h - l) (qmax (qabs (h - pc)) (qabs (l - pc)))

/-- The true-range series of a candle history (one value per candle after the
first), from `StrategyEngine.calculate_atr` lines 74-79. -/
def trList : Candle → List Candle → List ℚ
  | _, [] => []
  | prev, x :: xs => trueRange x.h x.l prev.c :: trList x xs

/-- `StrategyEngine.calculate_atr` (period 14): `0` for fewer than 2 candles;
otherwise the average of the last `min(14, len - 1)` true ranges. -/
def calculate_atr (history : List Candle) : ℚ :=
  match history with
  | [] => 0
  | [_] => 0
  | c0 :: rest =>
      let eff := min 14 (history.length - 1)
      (lastN eff (trList c0 rest)).sum / (eff : ℚ)

inductive SwingTy where
  | High
  | Low
deriving DecidableEq

/-- A detected wall: `{'type': ..., 'price': ...}`. -/
structure Swing where
  ty : SwingTy
  price : ℚ
deriving DecidableEq

/-- `StrategyEngine.identify_swing` (lines 110-170, `swing_window = 15`):
ATR noise filter followed by the 3-candle pullback confirmation.  The
comparison chains are kept in the source's order:
`p.high < ppp.high and c.high < p.high and pp.high < ppp.high` for a High
(note: the middle candle is compared against `ppp`, not against `pp`), and
mirrored on lows for a Low. -/
def identify_swing (candles : List Candle) : Option Swing :=
  if candles.length < 15 then none
  else
    let atr := calculate_atr candles
    let thr := if 0 < atr then atr * (12/10) else 5
    let lastW := lastN 15 candles
    let hi := listMax (lastW.map (·.h))
    let lo := listMin (lastW.map (·.l))
    let ws := (lastW.headD default).o
    if qabs (hi - ws) < thr ∧ qabs (lo - ws) < thr then none
    else
      let c := (lastN 1 candles).headD default
      let p := (lastN 2 candles).headD default
      let pp := (lastN 3 candles).headD default
      let ppp := (lastN 4 candles).headD default
      if ppp.h = hi ∧ p.h < ppp.h ∧ c.h < p.h ∧ pp.h < ppp.h then
        some ⟨.High, hi⟩
      else if ppp.l = lo ∧ ppp.l < p.l ∧ p.l < c.l ∧ ppp.l < pp.l then
        some ⟨.Low, lo⟩
      else none

/-! ## Exit management (`StrategyEngine.check_exit_condition` and
`TradingBot.aggregate_and_process`) -/

/-- Latest tick data for one instrument as the exit checker reads it:
`data['ltp']` raises `KeyError` when absent, so `ltp` is optional;
`data.get('oi_delta', 0)` defaults to `0`. -/
structure OptTick where
  ltp : Option ℚ
  oiDelta : Option ℚ
deriving DecidableEq

/-- A stored reference level as read back by the exit checker. -/
structure RefLvl where
  index_price : ℚ
  ce_price : ℚ
  pe_price : ℚ
deriving DecidableEq

inductive Side where
  | buyCe
  | buyPe
deriving DecidableEq, Inhabited

/-- Outcome of one `check_exit_condition` call: the trailing-stop value left
in `self.trailing_sl[index]`, and the returned Boolean — `none` when the call
raises (`KeyError` on a missing `ltp`), which the caller does not catch. -/
structure ExitEval where
  sl : Option ℚ
  outcome : Option Bool
deriving DecidableEq

/-- The ATR-based trailing-stop block of `check_exit_condition` (lines
345-372).  Returns the stored stop after the block and `some out` when the
block returns early (`some (some true)`: stop-loss hit; `some none`: the
active leg's `ltp` is missing and the lookup raises). -/
def trailingPhase (slTrailingCfg : Bool) (atrMultiplier entry atr : ℚ)
    (activeLtp : Option ℚ) (sl0 : Option ℚ) : Option ℚ × Option (Option Bool) :=
  if slTrailingCfg = true ∧ 0 < atr then
    let slInit := if sl0 = none ∨ sl0 = some 0 then entry - atrMultiplier * atr
                  else sl0.getD 0
    match activeLtp with
    | none => (some slInit, some none)
    | some v =>
        let newSl := v - atrMultiplier * atr
        let slUp := if slInit < newSl then newSl else slInit
        if v < slUp then (some slUp, some (some true))
        else
          let slLock := if entry + 3 * atr < v ∧ slUp < entry + atr then entry + atr
                        else slUp
          (some slLock, none)
  else (sl0, none)

/-- The active leg's tick for a position side. -/
def activeOf (side : Side) (ce pe : OptTick) : OptTick :=
  match side with
  | .buyCe => ce
  | .buyPe => pe

/-- The opposite leg's tick for a position side. -/
def oppOf (side : Side) (ce pe : OptTick) : OptTick :=
  match side with
  | .buyCe => pe
  | .buyPe => ce

/-- `StrategyEngine.check_exit_condition` (lines 334-393), checked in source
order: (1) ATR trailing stop, (2) opposite-leg OI reversal, (3) hard stop at
80% of entry, (4) symmetry break against the opposing reference level.
`atr` is `calculate_atr` of the active option's candle history when the
position carries the option key, else `0`. -/
def check_exit_condition (slTrailingCfg : Bool) (atrMultiplier : ℚ)
    (refHigh refLow : Option RefLvl) (side : Side) (entry : ℚ)
    (atr : ℚ) (idx ce pe : OptTick) (sl0 : Option ℚ) : ExitEval :=
  let active := activeOf side ce pe
  let opp := oppOf side ce pe
  let (sl1, early) := trailingPhase slTrailingCfg atrMultiplier entry atr active.ltp sl0
  match early with
  | some out => ⟨sl1, out⟩
  | none =>
      if (opp.oiDelta.getD 0) < 0 then ⟨sl1, some true⟩
      else
        match active.ltp with
        | none => ⟨sl1, none⟩
        | some v =>
            if v < entry * (8/10) then ⟨sl1, some true⟩
            else
              match side with
              | .buyCe =>
                  match refHigh with
                  | some rh =>
                      match idx.ltp with
                      | none => ⟨sl1, none⟩
                      | some iv =>
                          if rh.index_price < iv then
                            match ce.ltp with
                            | none => ⟨sl1, none⟩
                            | some cv =>
                                if cv < rh.ce_price then ⟨sl1, some true⟩
                                else ⟨sl1, some false⟩
                          else ⟨sl1, some false⟩
                  | none => ⟨sl1, some false⟩
              | .buyPe =>
                  match refLow with
                  | some rl =>
                      match idx.ltp with
                      | none => ⟨sl1, none⟩
                      | some iv =>
                          if iv < rl.index_price then
                            match pe.ltp with
                            | none => ⟨sl1, none⟩
                            | some pv =>
                                if pv < rl.pe_price then ⟨sl1, some true⟩
                                else ⟨sl1, some false⟩
                          else ⟨sl1, some false⟩
                  | none => ⟨sl1, some false⟩

/-- An open paper position as held in `ExecutionEngine.positions`. -/
structure Position where
  side : Side
  entry : ℚ
  quantity : ℚ
  statusOpen : Bool
  pnl : Option ℚ
deriving DecidableEq

/-- Net PnL on close from `ExecutionEngine.close_position` (lines 130-135):
exit slippage, turnover commission and the flat fee. -/
def pnlNet (slippage commissionRate fixedCharge : ℚ) (pos : Position)
    (currentPrice : ℚ) : ℚ :=
  let exitPrice := currentPrice * (1 - slippage)
  let exitCost := exitPrice * pos.quantity * commissionRate + fixedCharge
  (exitPrice - pos.entry) * pos.quantity - exitCost

/-- The per-update exit block of `TradingBot.aggregate_and_process` (lines
176-210): evaluate `check_exit_condition`; when it reports an exit, close the
position only if the active leg's latest price is strictly positive
(`exit_price = active_data.get('ltp', 0)`), otherwise keep waiting.  An
exception inside `check_exit_condition` propagates, so no close happens
either.  Returns the position after the cycle and the trailing-stop value. -/
def exitCycle (slTrailingCfg : Bool) (atrMultiplier : ℚ)
    (slippage commissionRate fixedCharge : ℚ)
    (refHigh refLow : Option RefLvl) (pos : Position) (atr : ℚ)
    (idx ce pe : OptTick) (engineSl : Option ℚ) : Position × Option ℚ :=
  let res := check_exit_condition slTrailingCfg atrMultiplier refHigh refLow
    pos.side pos.entry atr idx ce pe engineSl
  match res.outcome with
  | some true =>
      let exitPrice := (activeOf pos.side ce pe).ltp.getD 0
      if 0 < exitPrice then
        ({ pos with statusOpen := false,
                    pnl := some (pnlNet slippage commissionRate fixedCharge pos exitPrice) },
         res.sl)
      else (pos, res.sl)
  | _ => (pos, res.sl)

/-! ## The analyzer (`backend/brain/SymmetryAnalyzer.py`)

The analyzer consumes a data frame obtained by inner-merging the index, call
and put 1-minute candle streams on the timestamp column.  One merged row: -/

/-- One input candle `[ts, o, h, l, c, v]`. -/
structure CandleRow where
  ts : ℤ
  o : ℚ
  h : ℚ
  l : ℚ
  c : ℚ
  v : ℚ
deriving DecidableEq, Inhabited

/-- One row of the merged frame (`_idx`, `_ce`, `_pe` column suffixes). -/
structure Row where
  ts : ℤ
  oIdx : ℚ
  hIdx : ℚ
  lIdx : ℚ
  cIdx : ℚ
  vIdx : ℚ
  oCe : ℚ
  hCe : ℚ
  lCe : ℚ
  cCe : ℚ
  vCe : ℚ
  oPe : ℚ
  hPe : ℚ
  lPe : ℚ
  cPe : ℚ
  vPe : ℚ
deriving DecidableEq, Inhabited

/-- The inner merge on `ts` of `SymmetryAnalyzer.analyze` (lines 199-206),
under the assumption that each stream carries unique, ascending timestamps
(pandas `merge` + stable `sort_values` is the identity on row order then). -/
def mergeRows (idx ce pe : List CandleRow) : List Row :=
  idx.filterMap fun r =>
    match ce.find? (fun x => x.ts == r.ts), pe.find? (fun x => x.ts == r.ts) with
    | some a, some b =>
        some ⟨r.ts, r.o, r.h, r.l, r.c, r.v, a.o, a.h, a.l, a.c, a.v,
              b.o, b.h, b.l, b.c, b.v⟩
    | _, _ => none

/-- True-range series over the merged rows; the first row contributes
`h - l` (its `shift(1)` terms are NaN and `max` skips them). -/
def trRowsAux : Row → List Row → List ℚ
  | _, [] => []
  | prev, x :: xs => trueRange x.hIdx x.lIdx prev.cIdx :: trRowsAux x xs

/-- `SymmetryAnalyzer.calculate_atr` (window 14): `0` for fewer than 15 rows,
else the mean of the last 14 true ranges. -/
def analyzerAtr (df : List Row) : ℚ :=
  if df.length < 15 then 0
  else
    match df with
    | [] => 0
    | r0 :: rest =>
        let trs := (r0.hIdx - r0.lIdx) :: trRowsAux r0 rest
        (lastN 14 trs).sum / 14

/-- `SymmetryAnalyzer.identify_swing` (lines 35-64): ATR × 1.5 noise filter
(fallback 5 when ATR is 0) and a strictly monotonic 3-candle pullback
(`pp < ppp`, `p < pp`, `c < p` on highs for a High; mirrored on lows).
Returns the wall type together with the peak row `ppp` (`swing['data']`). -/
def identifySwingA (subset : List Row) : Option (SwingTy × Row) :=
  if subset.length < 15 then none
  else
    let atr := analyzerAtr subset
    let thr := if 0 < atr then atr * (15/10) else 5
    let c := (lastN 1 subset).headD default
    let p := (lastN 2 subset).headD default
    let pp := (lastN 3 subset).headD default
    let ppp := (lastN 4 subset).headD default
    let lastW := lastN 15 subset
    let hi := listMax (lastW.map (·.hIdx))
    let lo := listMin (lastW.map (·.lIdx))
    let ws := (lastW.headD default).oIdx
    if qabs (hi - ws) < thr ∧ qabs (lo - ws) < thr then none
    else if ppp.hIdx = hi ∧ pp.hIdx < ppp.hIdx ∧ p.hIdx < pp.hIdx ∧ c.hIdx < p.hIdx then
      some (.High, ppp)
    else if ppp.lIdx = lo ∧ ppp.lIdx < pp.lIdx ∧ pp.lIdx < p.lIdx ∧ p.lIdx < c.lIdx then
      some (.Low, ppp)
    else none

/-- `calculate_relative_velocity` (lookback 3): percentage moves of index,
CE and PE closes over 3 candles, `0` where the base is not positive. -/
def relVelocity (subset : List Row) : ℚ × ℚ × ℚ :=
  if subset.length < 4 then (0, 0, 0)
  else
    let cur := (lastN 1 subset).headD default
    let past := (lastN 4 subset).headD default
    (if 0 < past.cIdx then (cur.cIdx - past.cIdx) / past.cIdx else 0,
     if 0 < past.cCe then (cur.cCe - past.cCe) / past.cCe else 0,
     if 0 < past.cPe then (cur.cPe - past.cPe) / past.cPe else 0)

/-- Mean of a list (`series.mean()`); `0` on the empty list. -/
def mean (l : List ℚ) : ℚ := if l = [] then 0 else l.sum / (l.length : ℚ)

/-- `is_shallow_pullback` (lines 78-108). -/
def isShallowPullback (subset : List Row) (activeCe : Bool) : Bool :=
  if subset.length < 5 then false
  else
    let c := (lastN 1 subset).headD default
    let last5 := lastN 5 subset
    if activeCe then
      let m := listMax (last5.map (·.hIdx))
      let peak := (last5.find? (fun r => r.hIdx == m)).getD default
      let idxDropPct := if 0 < peak.hIdx then (peak.hIdx - c.lIdx) / peak.hIdx else 0
      if (1/1000 : ℚ) ≤ idxDropPct then
        let expected := (peak.hIdx - c.lIdx) * (1/2)
        let actual := peak.hCe - c.lCe
        decide (0 ≤ actual ∧ actual < expected * (8/10))
      else false
    else
      let m := listMin (last5.map (·.lIdx))
      let low := (last5.find? (fun r => r.lIdx == m)).getD default
      let idxRallyPct := if 0 < low.lIdx then (c.hIdx - low.lIdx) / low.lIdx else 0
      if (1/1000 : ℚ) ≤ idxRallyPct then
        let expected := (c.hIdx - low.lIdx) * (1/2)
        let actual := low.hPe - c.lPe
        decide (0 ≤ actual ∧ actual < expected * (8/10))
      else false

/-- `is_late_to_party` (lines 110-121): the current candle body of the active
leg exceeds twice the 15-candle average body. -/
def isLateToParty (subset : List Row) (activeCe : Bool) : Bool :=
  if subset.length < 15 then false
  else
    let c := (lastN 1 subset).headD default
    if activeCe then
      let avg := mean ((lastN 15 subset).map (fun r => qabs (r.cCe - r.oCe)))
      if 0 < avg then decide (2 * avg < qabs (c.cCe - c.oCe)) else false
    else
      let avg := mean ((lastN 15 subset).map (fun r => qabs (r.cPe - r.oPe)))
      if 0 < avg then decide (2 * avg < qabs (c.cPe - c.oPe)) else false

/-- `calculate_pcr_momentum` (lines 123-148) over PCR samples keyed by
timestamp. -/
def pcrMomentum (pcr : List (ℤ × ℚ)) (ts : ℤ) : ℤ :=
  if pcr = [] then 0
  else
    let keys := (pcr.map Prod.fst).mergeSort (· ≤ ·)
    let valid := keys.filter (· ≤ ts)
    if valid.length < 2 then 0
    else
      let lookupP := fun t => ((pcr.find? (fun p => p.1 == t)).map Prod.snd).getD 0
      let currentP := lookupP ((lastN 1 valid).headD 0)
      let sodP := lookupP (valid.headD 0)
      let lookback := if 10 ≤ valid.length then lastN 10 valid else valid
      let ma := (lookback.map lookupP).sum / (lookback.length : ℚ)
      if sodP < currentP ∧ ma < currentP then 1
      else if currentP < sodP ∧ currentP < ma then -1
      else 0

/-- Exponential moving average with `adjust=False`:
`e₀ = x₀`, `eᵢ = α xᵢ + (1 - α) eᵢ₋₁`. -/
def emaList (alpha : ℚ) : ℚ → List ℚ → ℚ
  | e, [] => e
  | e, x :: xs => emaList alpha (alpha * x + (1 - alpha) * e) xs

/-- `calculate_ema` (span = `period`, `α = 2 / (period + 1)`); `0` when the
frame is shorter than the period. -/
def calcEma (subset : List Row) (period : ℕ) (col : Row → ℚ) : ℚ :=
  if subset.length < period then 0
  else
    match subset.map col with
    | [] => 0
    | x :: xs => emaList (2 / ((period : ℚ) + 1)) x xs

/-- `calculate_avg_volume`: mean index volume over the last `period` rows. -/
def avgVolume (subset : List Row) (period : ℕ) : ℚ :=
  if subset.length < period then 0
  else mean ((lastN period subset).map (·.vIdx))

/-- `is_exhausted` (period 30): the 30-candle index move exceeds the
threshold percentage.  (A zero base close would raise in Python; rational
division by zero yields `0` here, making the check `false`.) -/
def isExhausted (subset : List Row) (thresholdPct : ℚ) : Bool :=
  if subset.length < 30 then false
  else
    let past := ((lastN 30 subset).headD default).cIdx
    let cur := ((lastN 1 subset).headD default).cIdx
    decide (thresholdPct < qabs (cur - past) / past)

/-- `check_void_above` (lines 173-190): the source returns `True` both when
the chain is missing and in the skeleton fallthrough, so the check is
constantly true. -/
def checkVoidAbove (_currentIndex : ℚ) (_up : Bool) (_chain : List ℚ) : Bool :=
  true

/-- Hour of a Unix timestamp; `datetime.fromtimestamp` with the process local
timezone assumed to be UTC (the source names the value `dt_utc` and encodes
the IST trading session in UTC hours). -/
def hourOfTs (ts : ℤ) : ℤ := ts % 86400 / 3600

/-- Minute within the hour of a Unix timestamp. -/
def minuteOfTs (ts : ℤ) : ℤ := ts % 3600 / 60

/-- The prime-trading-hours filter (IST 10:00-11:30 and 13:30-15:00, written
as UTC hours in the source). -/
def primeTimeOk (ts : ℤ) : Bool :=
  let h := hourOfTs ts
  let m := minuteOfTs ts
  ((h = 4 ∧ 30 ≤ m) ∨ h = 5 ∨ (h = 6 ∧ m ≤ 0)) ∨ (h = 8 ∨ (h = 9 ∧ m ≤ 30))

/-- Open-interest snapshots keyed by timestamp:
`(ts, ce_oi_chg, pe_oi_chg)`.  `none` models `oi_data=None`. -/
def oiMissing (oi : Option (List (ℤ × ℚ × ℚ))) : Bool :=
  match oi with
  | none => true
  | some l => l.isEmpty

/-- `oi_data[ts].get('ce_oi_chg', 0)` with default `0` when absent. -/
def oiCeDelta (oi : Option (List (ℤ × ℚ × ℚ))) (ts : ℤ) : ℚ :=
  match oi with
  | none => 0
  | some l =>
      match l.find? (fun e => e.1 == ts) with
      | some e => e.2.1
      | none => 0

/-- `oi_data[ts].get('pe_oi_chg', 0)` with default `0` when absent. -/
def oiPeDelta (oi : Option (List (ℤ × ℚ × ℚ))) (ts : ℤ) : ℚ :=
  match oi with
  | none => 0
  | some l =>
      match l.find? (fun e => e.1 == ts) with
      | some e => e.2.2
      | none => 0

/-- A stored reference level of the analyzer (`self.reference_levels[t]`). -/
structure ARefLevel where
  index_price : ℚ
  ce_price : ℚ
  pe_price : ℚ
  time : ℤ
deriving DecidableEq

/-- An emitted signal (the fields of the appended dict; the `details`
diagnostic map is omitted). -/
structure Sig where
  time : ℤ
  side : Side
  score : ℕ
  price : ℚ
  sl : ℚ
  tp : ℚ
deriving DecidableEq, Inhabited

/-- Static inputs of one `analyze` call.  `nifty` is `"NIFTY" in
self.underlying` and `bank` is `"BANK" in self.underlying` (note
`"BANKNIFTY"` contains both). -/
structure AConfig where
  nifty : Bool
  bank : Bool
  oi : Option (List (ℤ × ℚ × ℚ))
  pcr : List (ℤ × ℚ)
  chain : List ℚ

/-- The loop state of `analyze`: the persistent reference levels, the
accumulated signal list and the set of timestamps already signalled. -/
structure AState where
  refH : Option ARefLevel
  refL : Option ARefLevel
  sigs : List Sig
  seen : List ℤ

/-- Reference-level overwrite on a confirmed swing (`analyze` lines 216-226):
the level freezes the peak row's extreme index price and the *contemporaneous*
CE/PE closes of that peak row `ppp`. -/
def updateRefs (st : AState) (subset : List Row) : AState :=
  match identifySwingA subset with
  | some (ty, ppp) =>
      let lvl : ARefLevel :=
        ⟨if ty = .High then ppp.hIdx else ppp.lIdx, ppp.cCe, ppp.cPe, ppp.ts⟩
      match ty with
      | .High => { st with refH := some lvl }
      | .Low => { st with refL := some lvl }
  | none => st

/-- The cooldown veto (`analyze` lines 318 and 419): every one of the last 3
emitted signals must be more than 900 seconds old. -/
def cooldownPassed (sigs : List Sig) (ts : ℤ) : Bool :=
  (lastN 3 sigs).all fun s => decide (900 < ts - s.time)

/-- Boolean-to-score helper. -/
def b2n (b : Bool) : ℕ := if b then 1 else 0

/-- The bullish confluence score (`analyze` lines 233-312): volume surge,
trend filter, relative velocity, 3-green-candle confirmation, PE fresh low,
PCR momentum, void check, shallow pullback, and the double-weighted writer
panic. -/
def bullScoreOf (cfg : AConfig) (subset : List Row) (cur : Row)
    (rh : ARefLevel) : ℕ :=
  let avgVol := avgVolume subset 20
  let volMult : ℚ := if cfg.nifty then 18/10 else 11/10
  let volSurge := if 0 < avgVol then decide (avgVol * volMult < cur.vIdx) else false
  let e20 := calcEma subset 20 (·.cIdx)
  let e50 := calcEma subset 50 (·.cIdx)
  let trendOk := if 0 < e20 then decide (e20 < cur.cIdx ∧ e50 < cur.cIdx) else true
  let (idxVel, ceVel, peVel) := relVelocity subset
  let velHigh := decide (idxVel * (1/2) * (11/10) < ceVel ∧ 0 < ceVel)
  let color :=
    if 3 ≤ subset.length then
      let r1 := (lastN 1 subset).headD default
      let r2 := (lastN 2 subset).headD default
      let r3 := (lastN 3 subset).headD default
      decide (r1.oCe < r1.cCe ∧ r2.oCe < r2.cCe ∧ r3.oCe < r3.cCe)
    else false
  let peFresh := decide (cur.cPe < rh.pe_price ∧ peVel < 0)
  let pcrMom := b2n (pcrMomentum cfg.pcr cur.ts == 1)
  let voidOk := checkVoidAbove cur.cIdx true cfg.chain
  let shallow := isShallowPullback subset true
  let panic := oiMissing cfg.oi || decide (oiCeDelta cfg.oi cur.ts < -100)
  b2n volSurge + b2n trendOk + b2n velHigh + b2n color + b2n peFresh +
    pcrMom + b2n voidOk + b2n shallow + 2 * b2n panic

/-- The bearish confluence score (`analyze` lines 339-413). -/
def bearScoreOf (cfg : AConfig) (subset : List Row) (cur : Row)
    (rl : ARefLevel) : ℕ :=
  let avgVol := avgVolume subset 20
  let volSurge := if 0 < avgVol then decide (avgVol * (105/100) < cur.vIdx) else false
  let e20 := calcEma subset 20 (·.cIdx)
  let e50 := calcEma subset 50 (·.cIdx)
  let trendOk := if 0 < e20 then decide (cur.cIdx < e20 ∧ cur.cIdx < e50) else true
  let (idxVel, ceVel, peVel) := relVelocity subset
  let velHigh := decide (qabs idxVel * (1/2) * (11/10) < peVel ∧ 0 < peVel)
  let color :=
    if 3 ≤ subset.length then
      let r1 := (lastN 1 subset).headD default
      let r2 := (lastN 2 subset).headD default
      let r3 := (lastN 3 subset).headD default
      decide (r1.oPe < r1.cPe ∧ r2.oPe < r2.cPe ∧ r3.oPe < r3.cPe)
    else false
  let ceFresh := decide (cur.cCe < rl.ce_price ∧ ceVel < 0)
  let pcrMom := b2n (pcrMomentum cfg.pcr cur.ts == -1)
  let voidOk := checkVoidAbove cur.cIdx false cfg.chain
  let shallow := isShallowPullback subset false
  let panic := oiMissing cfg.oi || decide (oiPeDelta cfg.oi cur.ts < -100)
  b2n volSurge + b2n trendOk + b2n velHigh + b2n color + b2n ceFresh +
    pcrMom + b2n voidOk + b2n shallow + 2 * b2n panic

/-- The bullish trigger (`analyze` lines 314-331): absorption and
late-to-party guardrails, symmetry/breakout preconditions, score threshold,
cooldown veto and per-timestamp dedup; on acceptance a `BUY_CE` signal is
appended.  The acceptance condition (with its guardrails, score threshold,
cooldown veto and per-timestamp dedup) is split out as `bullTriggerCond`. -/
def bullTriggerCond (cfg : AConfig) (subset : List Row) (cur : Row)
    (rh : ARefLevel) (sigs : List Sig) (seen : List ℤ) : Bool :=
  let ts := cur.ts
  let score := bullScoreOf cfg subset cur rh
  let isAbs := decide (rh.index_price ≤ cur.cIdx ∧ cur.cCe ≤ rh.ce_price)
  let peFresh := decide (cur.cPe < rh.pe_price ∧ (relVelocity subset).2.2 < 0)
  let panic := oiMissing cfg.oi || decide (oiCeDelta cfg.oi ts < -100)
  let req := if cfg.nifty then 5 else 4
  (!isAbs && !isLateToParty subset true) &&
    (peFresh && decide (rh.ce_price * (102/100) < cur.cCe) && panic) &&
    decide (rh.index_price * (9995/10000) ≤ cur.cIdx) &&
    (decide (req ≤ score) && cooldownPassed sigs ts && !seen.contains ts)

def bullTrigger (cfg : AConfig) (st : AState) (subset : List Row) (cur : Row)
    (rh : ARefLevel) : AState :=
  if bullTriggerCond cfg subset cur rh st.sigs st.seen then
    let ts := cur.ts
    let score := bullScoreOf cfg subset cur rh
    let entry := cur.cCe
    let buf := entry * (5/100) + 1
    { st with
        sigs := st.sigs ++ [⟨ts, .buyCe, score, entry, entry - buf, entry + buf * (25/10)⟩],
        seen := st.seen ++ [ts] }
  else st

/-- The bearish trigger (`analyze` lines 415-430), mirroring `bullTrigger`
with the `BUY_PE` thresholds (`score ≥ 5` for NIFTY-family underlyings,
else `3`). -/
def bearTriggerCond (cfg : AConfig) (subset : List Row) (cur : Row)
    (rl : ARefLevel) (sigs : List Sig) (seen : List ℤ) : Bool :=
  let ts := cur.ts
  let score := bearScoreOf cfg subset cur rl
  let isAbs := decide (cur.cIdx ≤ rl.index_price ∧ cur.cPe ≤ rl.pe_price)
  let ceFresh := decide (cur.cCe < rl.ce_price ∧ (relVelocity subset).2.1 < 0)
  let panic := oiMissing cfg.oi || decide (oiPeDelta cfg.oi ts < -100)
  let req := if cfg.nifty then 5 else 3
  (!isAbs && !isLateToParty subset false) &&
    (ceFresh && decide (rl.pe_price * (102/100) < cur.cPe) && panic) &&
    decide (cur.cIdx ≤ rl.index_price * (10005/10000)) &&
    (decide (req ≤ score) && cooldownPassed sigs ts && !seen.contains ts)

def bearTrigger (cfg : AConfig) (st : AState) (subset : List Row) (cur : Row)
    (rl : ARefLevel) : AState :=
  if bearTriggerCond cfg subset cur rl st.sigs st.seen then
    let ts := cur.ts
    let score := bearScoreOf cfg subset cur rl
    let entry := cur.cPe
    let buf := entry * (5/100) + 1
    { st with
        sigs := st.sigs ++ [⟨ts, .buyPe, score, entry, entry - buf, entry + buf * (25/10)⟩],
        seen := st.seen ++ [ts] }
  else st

/-- The bearish half of one loop iteration (`analyze` lines 333-430); its
time/exhaustion `continue`s have nothing after them, so they reduce to
skips. -/
def bearBlock (cfg : AConfig) (st : AState) (subset : List Row) (cur : Row)
    (exhThr : ℚ) : AState :=
  match st.refL with
  | some rl =>
      if !primeTimeOk cur.ts then st
      else if isExhausted subset exhThr then st
      else bearTrigger cfg st subset cur rl
  | none => st

/-- One iteration of the `analyze` loop (lines 211-430) at index `i`:
update the reference levels from the swing detector, then run the bullish
block — whose time-of-day and exhaustion `continue`s skip the bearish block
as well — and then the bearish block. -/
def analyzeStep (cfg : AConfig) (rows : List Row) (st : AState) (i : ℕ) : AState :=
  if i < 15 then st
  else
    match rows.get? i with
    | none => st
    | some cur =>
        let subset := rows.take (i + 1)
        let st1 := updateRefs st subset
        let exhThr : ℚ := if cfg.bank then 15/1000 else 6/1000
        match st1.refH with
        | some rh =>
            if !primeTimeOk cur.ts then st1
            else if isExhausted subset exhThr then st1
            else
              let st2 := bullTrigger cfg st1 subset cur rh
              bearBlock cfg st2 subset cur exhThr
        | none => bearBlock cfg st1 subset cur exhThr

/-- `SymmetryAnalyzer.analyze` over pre-merged rows, starting from the
analyzer's current reference levels; the signal list and the
seen-timestamp set start empty on every call. -/
def analyzeRows (cfg : AConfig) (rows : List Row)
    (refH0 refL0 : Option ARefLevel) : AState :=
  (List.range rows.length).foldl (analyzeStep cfg rows) ⟨refH0, refL0, [], []⟩

/-- `SymmetryAnalyzer.analyze`: merge the three candle streams, then run the
scan loop. -/
def analyze (cfg : AConfig) (idx ce pe : List CandleRow)
    (refH0 refL0 : Option ARefLevel) : AState :=
  analyzeRows cfg (mergeRows idx ce pe) refH0 refL0

/-! ## Subscription router (`backend/core/data_engine.py`,
`unsubscribe_instrument`, and the position protection of
`TradingBot.monitor_index`) -/

/-- `room_subscribers`: one entry per `(instrumentKey, interval)` room with
its subscriber ids. -/
def Rooms := List ((String × String) × List String)

/-- Dictionary lookup on the room table. -/
def roomsLookup (rooms : Rooms) (k : String × String) : Option (List String) :=
  (List.find? (fun e => e.1 == k) rooms).map (·.2)

/-- In-place replacement of one room's subscriber set. -/
def roomsSet (rooms : Rooms) (k : String × String) (v : List String) : Rooms :=
  List.map (fun e => if e.1 == k then (e.1, v) else e) rooms

/-- `del room_subscribers[key]`. -/
def roomsDel (rooms : Rooms) (k : String × String) : Rooms :=
  List.filter (fun e => !(e.1 == k)) rooms

/-- `unsubscribe_instrument` (lines 366-386): remove the subscriber from the
room; when the room becomes empty, call `provider.unsubscribe` upstream and
delete the room.  The Boolean result records whether upstream unsubscription
was triggered.  `resolveKey` models the head of the function (lines 367-373:
uppercase the key, and resolve bare human-readable names — no `|`, no `:` —
through the symbol mapper); it is kept abstract because string case-mapping
is proof-opaque in Lean.  The function takes no position information: the
source consults none here. -/
def unsubscribe_instrument (resolveKey : String → String) (rooms : Rooms)
    (inst sid interval : String) : Rooms × Bool :=
  let key := (resolveKey inst, interval)
  match roomsLookup rooms key with
  | some sids =>
      if sid ∈ sids then
        let sids' := sids.erase sid
        if sids' = [] then (roomsDel rooms key, true)
        else (roomsSet rooms key sids', false)
      else (rooms, false)
  | none => (rooms, false)

/-- The option-leg keys stored on one open position
(`pos.get('ce_key')` / `pos.get('pe_key')`). -/
structure PosLegs where
  ceKey : Option String
  peKey : Option String
deriving DecidableEq

/-- The protected-key list built by `TradingBot.monitor_index` (lines
305-308): every CE/PE strike referenced by an open position. -/
def protectedKeys (positions : List PosLegs) : List String :=
  positions.foldl (fun acc p => acc ++ p.ceKey.toList ++ p.peKey.toList) []

/-- The instrument-rotation unsubscription list of `monitor_index` (line
312): old keys that are neither re-subscribed nor protected by an open
position. -/
def toUnsubscribe (oldKeys newKeys prot : List String) : List String :=
  List.filter (fun k => !(newKeys.contains k) && !(prot.contains k)) oldKeys

/-! ## Spec-side definitions

These two definitions follow the words of the specification (not the code):
the strictly monotonic 3-candle pullback the spec requires of
`StrategyEngine.identify_swing`.  They are compared against the embedded
source function. -/

/-- The spec's High-wall condition: `ppp.high` equals the window max and
`pp.high < ppp.high ∧ p.high < pp.high ∧ c.high < p.high` (strict 3-candle
monotonic pullback). -/
def specHighPullback (candles : List Candle) : Prop :=
  let c := (lastN 1 candles).headD default
  let p := (lastN 2 candles).headD default
  let pp := (lastN 3 candles).headD default
  let ppp := (lastN 4 candles).headD default
  ppp.h = listMax ((lastN 15 candles).map (·.h)) ∧
    pp.h < ppp.h ∧ p.h < pp.h ∧ c.h < p.h

/-- The spec's Low-wall condition, mirrored on lows. -/
def specLowPullback (candles : List Candle) : Prop :=
  let c := (lastN 1 candles).headD default
  let p := (lastN 2 candles).headD default
  let pp := (lastN 3 candles).headD default
  let ppp := (lastN 4 candles).headD default
  ppp.l = listMin ((lastN 15 candles).map (·.l)) ∧
    ppp.l < pp.l ∧ pp.l < p.l ∧ p.l < c.l

instance : DecidablePred specHighPullback := fun l => by
  unfold specHighPullback; infer_instance

instance : DecidablePred specLowPullback := fun l => by
  unfold specLowPullback; infer_instance

/-- The source's actual High-wall condition (`strategy.py` lines 157-159):
`ppp.high == window max` and `p.high < ppp.high and c.high < p.high and
pp.high < ppp.high` — the middle candle `p` is compared against the peak
`ppp`, not against its predecessor `pp`. -/
def codeHighPat (candles : List Candle) : Prop :=
  let c := (lastN 1 candles).headD default
  let p := (lastN 2 candles).headD default
  let pp := (lastN 3 candles).headD default
  let ppp := (lastN 4 candles).headD default
  ppp.h = listMax ((lastN 15 candles).map (·.h)) ∧
    p.h < ppp.h ∧ c.h < p.h ∧ pp.h < ppp.h

/-- The source's actual Low-wall condition (`strategy.py` lines 165-167),
mirrored on lows. -/
def codeLowPat (candles : List Candle) : Prop :=
  let c := (lastN 1 candles).headD default
  let p := (lastN 2 candles).headD default
  let pp := (lastN 3 candles).headD default
  let ppp := (lastN 4 candles).headD default
  ppp.l = listMin ((lastN 15 candles).map (·.l)) ∧
    ppp.l < p.l ∧ p.l < c.l ∧ ppp.l < pp.l

instance : DecidablePred codeHighPat := fun l => by
  unfold codeHighPat; infer_instance

instance : DecidablePred codeLowPat := fun l => by
  unfold codeLowPat; infer_instance

/-- The cooldown invariant in propositional form: any signal still among the
last three when a later one is appended (list distance ≤ 3) is more than 900
seconds older. -/
def CooldownInv (sigs : List Sig) : Prop :=
  ∀ i j : ℕ, i < j → j ≤ i + 3 → j < sigs.length →
    900 < (sigs.getD j default).time - (sigs.getD i default).time

/-- The cooldown property of an emitted signal list, as the claim states it:
whenever an earlier signal is still among the last 3 at the moment a later
one is appended (list distance at most 3), more than 900 seconds separate
them. -/
def cooldownOK (sigs : List Sig) : Bool :=
  (List.range sigs.length).all fun j =>
    (List.range j).all fun i =>
      !(decide (j ≤ i + 3)) ||
        decide (900 < (sigs.getD j default).time - (sigs.getD i default).time)

/-! ## Concrete example data -/

/-- A flat index candle (open/high/close 100, low 90). -/
def flatC : Candle := ⟨100, 100, 90, 100⟩

/-- 15 candles whose peak sits 4 candles back but whose pullback is *not*
monotonic (`p.high = 120 > pp.high = 110`); the code still confirms a High. -/
def c1cex : List Candle :=
  [flatC, flatC, flatC, flatC, flatC, flatC, flatC, flatC, flatC, flatC, flatC,
   ⟨100, 140, 90, 100⟩, ⟨100, 110, 90, 100⟩, ⟨100, 120, 90, 100⟩,
   ⟨100, 115, 90, 100⟩]

/-- 15 candles with a clean monotonic 3-candle pullback from a 40-point
spike. -/
def c1good : List Candle :=
  [flatC, flatC, flatC, flatC, flatC, flatC, flatC, flatC, flatC, flatC, flatC,
   ⟨100, 140, 90, 100⟩, ⟨100, 130, 90, 100⟩, ⟨100, 120, 90, 100⟩,
   ⟨100, 110, 90, 100⟩]

/-- A flat merged row for the analyzer examples. -/
def flatR (ts : ℤ) : Row :=
  ⟨ts, 100, 100, 90, 100, 10, 50, 56, 44, 55, 5, 80, 86, 74, 79, 5⟩

/-- A merged row with the given index high and leg closes. -/
def spikeR (ts : ℤ) (hIdx cCe cPe : ℚ) : Row :=
  ⟨ts, 100, hIdx, 90, 100, 10, cCe - 5, cCe + 1, cCe - 6, cCe, 5,
   cPe + 1, cPe + 2, cPe - 1, cPe, 5⟩

/-- 15 merged rows whose index stream spikes to 140 at the 4th-last row and
pulls back monotonically; the analyzer confirms a High wall there. -/
def c2rows : List Row :=
  [flatR 0, flatR 60, flatR 120, flatR 180, flatR 240, flatR 300, flatR 360,
   flatR 420, flatR 480, flatR 540, flatR 600,
   spikeR 660 140 52 68, spikeR 720 138 53 67, spikeR 780 137 54 66,
   spikeR 840 136 55 65]

/-! ## Theorems -/

/-- The computable `qmax` is Mathlib's `max`. -/
theorem qmax_eq_max (a b : ℚ) : qmax a b = max a b := by
  unfold qmax
  split
  · exact (max_eq_right ‹a ≤ b›).symm
  · exact (max_eq_left (le_of_not_le ‹¬a ≤ b›)).symm

/-- The computable `qmin` is Mathlib's `min`. -/
theorem qmin_eq_min (a b : ℚ) : qmin a b = min a b := by
  unfold qmin
  split
  · exact (min_eq_right ‹b ≤ a›).symm
  · exact (min_eq_left (le_of_not_le ‹¬b ≤ a›)).symm

/-- The computable `qabs` is Mathlib's `|·|`. -/
theorem qabs_eq_abs (a : ℚ) : qabs a = |a| := by
  unfold qabs
  split
  · exact (abs_of_neg ‹a < 0›).symm
  · exact (abs_of_nonneg (le_of_not_lt ‹¬a < 0›)).symm

/-- Helper: every delta the tracker produces from nonnegative readings is
nonnegative, whatever the stored total is. -/
theorem volDeltas_nonneg (isC : Bool) (l : List ℚ) (hl : ∀ r ∈ l, 0 ≤ r) :
    ∀ prev, ∀ d ∈ volDeltas isC prev l, 0 ≤ d := by
  induction l with
  | nil => intro prev d hd; simp [volDeltas] at hd
  | cons x xs ih =>
      intro prev d hd
      simp only [volDeltas, List.mem_cons] at hd
      rcases hd with h | h
      · subst h
        unfold volDelta
        split
        · split
          · exact hl x (by simp)
          · exact le_max_left 0 _
        · exact le_rfl
      · exact ih (fun r hr => hl r (by simp [hr])) x d h

/-- C3 counterexample: on a candle-sourced tracker the reading sequence
`[0, 50]` contains no reset (`50 < 0 × 0.5` fails), yet the second delta is
`0`, not `max(0, 50 - 0) = 50`: the `prev_vol > 0` guard routes any reading
that follows a stored total of `0` through the "first reading" branch. -/
theorem volDelta_zero_prev_cex :
    volDeltasFromStart true [0, 50] = [0, 0] ∧
    ¬ ((50 : ℚ) < 0 * (1/2)) ∧ max (0 : ℚ) (50 - 0) = 50 := by
  refine ⟨by norm_num [volDeltasFromStart, volDeltas, volDelta], by norm_num, by norm_num⟩

/-- C3 (amended): for every cumulative-volume sequence on one tracker, the
first reading yields delta 0; a reading whose *stored previous total is
positive* yields `max(0, curr - prev)` when no reset is detected and `curr`
itself on a candle-source reset (`curr < prev × 0.5`); a reading whose stored
previous total is 0 yields 0; all deltas are nonnegative for nonnegative
readings; and the candle-sourced sequence `[5000, 5200, 1800, 1900]` yields
`[0, 200, 1800, 100]`. -/
theorem volDelta_sequence_spec (isC : Bool) (readings : List ℚ)
    (hnn : ∀ r ∈ readings, 0 ≤ r) :
    (∀ d ∈ volDeltasFromStart isC readings, 0 ≤ d) ∧
    (readings ≠ [] → (volDeltasFromStart isC readings).head? = some 0) ∧
    (∀ prev curr : ℚ, 0 < prev → ¬(isC = true ∧ curr < prev * (1/2)) →
        volDelta isC prev curr = max 0 (curr - prev)) ∧
    (∀ prev curr : ℚ, 0 < prev → isC = true → curr < prev * (1/2) →
        volDelta isC prev curr = curr) ∧
    (∀ curr : ℚ, volDelta isC 0 curr = 0) ∧
    (∀ (prev curr : ℚ) (rest : List ℚ),
        volDeltas isC prev (curr :: rest) =
          volDelta isC prev curr :: volDeltas isC curr rest) ∧
    volDeltasFromStart true [5000, 5200, 1800, 1900] = [0, 200, 1800, 100] := by
  refine ⟨volDeltas_nonneg isC readings hnn 0, ?_, ?_, ?_, ?_, ?_,
    by norm_num [volDeltasFromStart, volDeltas, volDelta, qmax]⟩
  · intro hne
    match readings with
    | [] => exact absurd rfl hne
    | x :: xs => simp [volDeltasFromStart, volDeltas, volDelta]
  · intro prev curr hprev hnr
    unfold volDelta
    rw [if_pos hprev, if_neg hnr, qmax_eq_max]
  · intro prev curr hprev hc hlt
    unfold volDelta
    rw [if_pos hprev, if_pos ⟨hc, hlt⟩]
  · intro curr
    unfold volDelta
    simp
  · intro prev curr rest
    rfl

/-- Witness for `volDelta_sequence_spec` at the candle-sourced Scenario B
input. -/
theorem volDelta_sequence_spec_witness :
    volDeltasFromStart true [5000, 5200, 1800, 1900] = [0, 200, 1800, 100] ∧
    (volDeltasFromStart true [5000, 5200, 1800, 1900]).head? = some 0 := by
  have h := volDelta_sequence_spec true [5000, 5200, 1800, 1900] (by norm_num)
  exact ⟨h.2.2.2.2.2.2, h.2.1 (by simp)⟩

/-- C7: every flush makes at most 3 insertion attempts; every tick of the
swapped-out batch ends up either persisted or back in the live buffer (the
batch is persisted whole or not at all); when all 3 attempts fail the batch
is prepended in front of the ticks that arrived during the retries. -/
theorem flush_at_least_once (buf arrivals : List Tick) (dbOk : ℕ → Bool) :
    (flush_tick_buffer buf dbOk arrivals).attempts ≤ 3 ∧
    (∀ t ∈ buf, t ∈ (flush_tick_buffer buf dbOk arrivals).persisted ∨
      t ∈ (flush_tick_buffer buf dbOk arrivals).buffer) ∧
    ((flush_tick_buffer buf dbOk arrivals).persisted = buf ∨
      (flush_tick_buffer buf dbOk arrivals).persisted = []) ∧
    (dbOk 0 = false → dbOk 1 = false → dbOk 2 = false →
      (flush_tick_buffer buf dbOk arrivals).buffer = buf ++ arrivals) ∧
    ((dbOk 0 = true ∨ dbOk 1 = true ∨ dbOk 2 = true) → buf ≠ [] →
      (flush_tick_buffer buf dbOk arrivals).persisted = buf ∧
      (flush_tick_buffer buf dbOk arrivals).buffer = arrivals) := by
  unfold flush_tick_buffer
  by_cases hb : buf = []
  · subst hb
    simp
  · rw [if_neg hb]
    by_cases h0 : dbOk 0 = true
    · rw [if_pos h0]
      exact ⟨by norm_num, fun t ht => Or.inl ht, Or.inl rfl,
        fun hf _ _ => absurd h0 (by simp [hf]), fun _ _ => ⟨rfl, rfl⟩⟩
    · rw [if_neg h0]
      by_cases h1 : dbOk 1 = true
      · rw [if_pos h1]
        exact ⟨by norm_num, fun t ht => Or.inl ht, Or.inl rfl,
          fun _ hf _ => absurd h1 (by simp [hf]), fun _ _ => ⟨rfl, rfl⟩⟩
      · rw [if_neg h1]
        by_cases h2 : dbOk 2 = true
        · rw [if_pos h2]
          exact ⟨by norm_num, fun t ht => Or.inl ht, Or.inl rfl,
            fun _ _ hf => absurd h2 (by simp [hf]), fun _ _ => ⟨rfl, rfl⟩⟩
        · rw [if_neg h2]
          refine ⟨by norm_num, ?_, Or.inr rfl, fun _ _ _ => rfl, ?_⟩
          · intro t ht
            exact Or.inr (List.mem_append_left _ ht)
          · intro hsucc _
            rcases hsucc with h | h | h
            · exact absurd h h0
            · exact absurd h h1
            · exact absurd h h2

/-- Witness for `flush_at_least_once`: a single-tick batch against a database
that fails all attempts is returned to the live buffer in front of the tick
that arrived during the retries. -/
theorem flush_at_least_once_witness :
    (flush_tick_buffer [⟨"A", 1, 1, 1⟩] (fun _ => false) [⟨"B", 2, 2, 2⟩]).buffer
      = [⟨"A", 1, 1, 1⟩, ⟨"B", 2, 2, 2⟩] ∧
    (flush_tick_buffer [⟨"A", 1, 1, 1⟩] (fun _ => false) [⟨"B", 2, 2, 2⟩]).attempts ≤ 3 := by
  have h := flush_at_least_once [⟨"A", 1, 1, 1⟩] [⟨"B", 2, 2, 2⟩] (fun _ => false)
  exact ⟨h.2.2.2.1 rfl rfl rfl, h.1⟩

/-- C8: the index heartbeat volume is never synthesized on the chart-fallback
path.  The chart deduplication (line 214) stores the current bar's timestamp
into `last_processed_tick` *before* the per-feed loop reads it back (line
286), so `ts_val != prev_ts` always fails and a zero delta stays `0` instead
of becoming `1` — here on an index bar with a genuinely new timestamp
(1700000060000 ≠ the prior 1700000000000) and an unchanged cumulative
volume. -/
theorem index_heartbeat_never_fires :
    (processChartBar true "IDX" "1" 1700000060 101 500
        ⟨[("IDX", (1700000000000, 100, 500))], [("IDX_1_candle", 500)], []⟩).2
      = some ⟨"IDX", 101, 0, 1700000060000⟩ ∧
    (1700000060000 : ℤ) ≠ 1700000000000 := by
  refine ⟨?_, by norm_num⟩
  have hs : ("IDX" ++ "_" ++ "1" ++ "_candle" : String) = "IDX_1_candle" := rfl
  norm_num [processChartBar, processFeedBody, aset, List.lookup, normTs,
    clampDelta, volDelta, qmax, truncToInt, safeFloat, Option.orElse,
    beq_iff_eq, hs]

/-- C10 counterexample: instrument `NSE:X` is the CE leg of an open position
(it is in the protected-key list), its only room loses its last subscriber —
and `unsubscribe_instrument` still triggers upstream unsubscription: the
room-based path consults no positions. -/
theorem unsubscribe_ignores_positions_cex :
    "NSE:X" ∈ protectedKeys [⟨some "NSE:X", some "NSE:Y"⟩] ∧
    (unsubscribe_instrument id
      [(("NSE:X", "1"), ["S1"])] "NSE:X" "S1" "1").2 = true := by
  constructor
  · decide
  · simp [unsubscribe_instrument, roomsLookup, List.find?, beq_iff_eq,
      List.erase, roomsDel]

/-- C10 (amended): an `unsubscribe_instrument` call that empties a room
always triggers upstream unsubscription, open positions notwithstanding;
position protection lives only in the bot's instrument-rotation path, whose
unsubscription list never contains a key referenced by an open position. -/
theorem unsubscribe_spec :
    (∀ (resolveKey : String → String) (rooms : Rooms)
       (inst sid interval : String) (sids : List String),
       roomsLookup rooms (resolveKey inst, interval) = some sids →
       sid ∈ sids → sids.erase sid = [] →
       (unsubscribe_instrument resolveKey rooms inst sid interval).2 = true) ∧
    (∀ (positions : List PosLegs) (oldKeys newKeys : List String) (k : String),
       k ∈ protectedKeys positions →
       k ∉ toUnsubscribe oldKeys newKeys (protectedKeys positions)) := by
  constructor
  · intro resolveKey rooms inst sid interval sids hlk hmem herase
    simp only [unsubscribe_instrument]
    rw [hlk]
    simp [hmem, herase]
  · intro positions oldKeys newKeys k hk hmem
    unfold toUnsubscribe at hmem
    rw [List.mem_filter] at hmem
    have h2 := hmem.2
    simp only [Bool.and_eq_true, Bool.not_eq_true'] at h2
    have : k ∈ protectedKeys positions → False := by
      intro hkk
      have : (protectedKeys positions).contains k = true := by simpa using hkk
      rw [this] at h2
      exact absurd h2.2 (by simp)
    exact this hk

/-- Witness for `unsubscribe_spec` on a concrete room table and position
list. -/
theorem unsubscribe_spec_witness :
    (unsubscribe_instrument id
      [(("NSE:A", "1"), ["S2"])] "NSE:A" "S2" "1").2 = true ∧
    "K1" ∉ toUnsubscribe ["K1", "K2"] [] (protectedKeys [⟨some "K1", none⟩]) := by
  constructor
  · exact unsubscribe_spec.1 id _ "NSE:A" "S2" "1" ["S2"]
      (by simp [roomsLookup, List.find?, beq_iff_eq]) (by decide) (by decide)
  · exact unsubscribe_spec.2 [⟨some "K1", none⟩] ["K1", "K2"] [] "K1" (by decide)

/-- Helper: the shared per-feed body never touches the dedup state. -/
theorem processFeedBody_lastProcessed (isIndex isC : Bool) (interval inst : String)
    (f : QuoteFeed) (st : DEState) :
    (processFeedBody isIndex isC interval inst f st).1.lastProcessed
      = st.lastProcessed := by
  unfold processFeedBody
  cases f.tvVolume.orElse fun _ => f.upstoxVolume <;> rfl

/-- Helper: the shared per-feed body appends exactly one tick to the
persistence buffer. -/
theorem processFeedBody_buffer (isIndex isC : Bool) (interval inst : String)
    (f : QuoteFeed) (st : DEState) :
    (processFeedBody isIndex isC interval inst f st).1.buffer
      = st.buffer ++ [(processFeedBody isIndex isC interval inst f st).2] := by
  unfold processFeedBody
  cases f.tvVolume.orElse fun _ => f.upstoxVolume <;> rfl

/-- Helper: once a quote's triple is stored in `last_processed_tick`, the
same quote is classified as a duplicate. -/
theorem isDupQuote_after (inst : String) (f : QuoteFeed)
    (lp : List (String × ℤ × ℚ × ℚ)) (vols : List (String × ℚ))
    (buf : List Tick) :
    isDupQuote inst f
      ⟨aset inst (f.tsMs, f.lastPrice, safeFloat f.tvVolume) lp, vols, buf⟩
      = true := by
  simp [isDupQuote, aset, List.lookup]

/-- Helper: a duplicate quote is dropped with the state untouched. -/
theorem processQuote_dup (isIndex : Bool) (inst : String) (f : QuoteFeed)
    (s : DEState) (h : isDupQuote inst f s = true) :
    processQuote isIndex inst f s = (s, none) := by
  unfold processQuote
  rw [h]
  rfl

/-- C5: feeding the identical quote tick twice in a row processes it exactly
once — the first pass emits one tick and appends exactly one entry to the
persistence buffer, and the second pass is skipped before delta computation,
buffering and emission, leaving the state untouched. -/
theorem dedup_idempotent (isIndex : Bool) (inst : String) (f : QuoteFeed)
    (st : DEState) (hfresh : isDupQuote inst f st = false) :
    ((processQuote isIndex inst f st).2).isSome = true ∧
    (processQuote isIndex inst f st).1.buffer.length = st.buffer.length + 1 ∧
    processQuote isIndex inst f ((processQuote isIndex inst f st).1)
      = ((processQuote isIndex inst f st).1, none) := by
  have h1 : processQuote isIndex inst f st
      = ((processFeedBody isIndex false "1" inst f
            ⟨aset inst (f.tsMs, f.lastPrice, safeFloat f.tvVolume) st.lastProcessed,
             st.volumes, st.buffer⟩).1,
         some (processFeedBody isIndex false "1" inst f
            ⟨aset inst (f.tsMs, f.lastPrice, safeFloat f.tvVolume) st.lastProcessed,
             st.volumes, st.buffer⟩).2) := by
    unfold processQuote
    rw [hfresh]
    rfl
  refine ⟨by rw [h1]; rfl, ?_, ?_⟩
  · rw [h1]
    simp [processFeedBody_buffer]
  · have hdup : isDupQuote inst f (processQuote isIndex inst f st).1 = true := by
      rw [h1]
      have hlp := processFeedBody_lastProcessed isIndex false "1" inst f
        ⟨aset inst (f.tsMs, f.lastPrice, safeFloat f.tvVolume) st.lastProcessed,
         st.volumes, st.buffer⟩
      unfold isDupQuote
      rw [hlp]
      have h2 := isDupQuote_after inst f st.lastProcessed st.volumes st.buffer
      unfold isDupQuote at h2
      exact h2
    exact processQuote_dup isIndex inst f _ hdup

/-- Witness for `dedup_idempotent`: two identical quotes on a fresh engine
state buffer exactly one tick. -/
theorem dedup_idempotent_witness :
    ((processQuote false "X" ⟨100, some 1000, none, 0⟩ ⟨[], [], []⟩).2).isSome = true ∧
    (processQuote false "X" ⟨100, some 1000, none, 0⟩ ⟨[], [], []⟩).1.buffer.length = 1 ∧
    processQuote false "X" ⟨100, some 1000, none, 0⟩
        ((processQuote false "X" ⟨100, some 1000, none, 0⟩ ⟨[], [], []⟩).1)
      = ((processQuote false "X" ⟨100, some 1000, none, 0⟩ ⟨[], [], []⟩).1, none) := by
  have h := dedup_idempotent false "X" ⟨100, some 1000, none, 0⟩ ⟨[], [], []⟩ rfl
  exact ⟨h.1, h.2.1, h.2.2⟩

/-- Helper: the trailing-stop value `check_exit_condition` leaves behind is
exactly what the trailing-stop block computed. -/
theorem check_exit_sl_eq (slT : Bool) (mult : ℚ) (refH refL : Option RefLvl)
    (side : Side) (entry atr : ℚ) (idx ce pe : OptTick) (sl0 : Option ℚ) :
    (check_exit_condition slT mult refH refL side entry atr idx ce pe sl0).sl
      = (trailingPhase slT mult entry atr (activeOf side ce pe).ltp sl0).1 := by
  simp only [check_exit_condition]
  rcases trailingPhase slT mult entry atr (activeOf side ce pe).ltp sl0 with ⟨sl1, early⟩
  rcases early with _ | out
  · repeat first
      | rfl
      | split
  · rfl

/-- Helper: an early return of the trailing-stop block short-circuits
`check_exit_condition`. -/
theorem check_exit_of_early (slT : Bool) (mult : ℚ) (refH refL : Option RefLvl)
    (side : Side) (entry atr : ℚ) (idx ce pe : OptTick) (sl0 : Option ℚ)
    (sl1 : Option ℚ) (out : Option Bool)
    (h : trailingPhase slT mult entry atr (activeOf side ce pe).ltp sl0
          = (sl1, some out)) :
    check_exit_condition slT mult refH refL side entry atr idx ce pe sl0
      = ⟨sl1, out⟩ := by
  simp only [check_exit_condition]
  rw [h]

/-- Helper: the left argument never exceeds an upward ratchet. -/
theorem le_ratchet_left (a b : ℚ) : a ≤ if a < b then b else a := by
  split
  · exact le_of_lt ‹a < b›
  · exact le_rfl

/-- Helper: the right argument never exceeds an upward ratchet. -/
theorem le_ratchet_right (a b : ℚ) : b ≤ if a < b then b else a := by
  split
  · exact le_rfl
  · exact le_of_not_lt ‹¬a < b›

/-- Helper: the trailing block with a present price, unfolded. -/
theorem trailingPhase_some (mult entry atr v : ℚ) (sl0 : Option ℚ)
    (hatr : 0 < atr) :
    trailingPhase true mult entry atr (some v) sl0 =
      (let slInit := if sl0 = none ∨ sl0 = some 0 then entry - mult * atr
                     else sl0.getD 0
       let slUp := if slInit < v - mult * atr then v - mult * atr else slInit
       if v < slUp then (some slUp, some (some true))
       else (some (if entry + 3 * atr < v ∧ slUp < entry + atr then entry + atr
                   else slUp), none)) := by
  simp only [trailingPhase]
  rw [if_pos (And.intro (by trivial) hatr)]

/-- Helper: whatever branch the trailing block takes on a present price, the
stored stop ends at or above both the pre-ratchet value and
`v - mult * atr`. -/
theorem trailingPhase_some_ge (mult entry atr v : ℚ) (sl0 : Option ℚ)
    (hatr : 0 < atr) :
    ∀ s', (trailingPhase true mult entry atr (some v) sl0).1 = some s' →
      (if sl0 = none ∨ sl0 = some 0 then entry - mult * atr else sl0.getD 0) ≤ s'
        ∧ v - mult * atr ≤ s' := by
  intro s' h
  rw [trailingPhase_some mult entry atr v sl0 hatr] at h
  simp only [] at h
  generalize hI : (if sl0 = none ∨ sl0 = some 0 then entry - mult * atr
      else sl0.getD 0) = slInit at h ⊢
  by_cases hx : v < if slInit < v - mult * atr then v - mult * atr else slInit
  · rw [if_pos hx] at h
    dsimp only at h
    rw [Option.some.injEq] at h
    subst h
    exact ⟨le_ratchet_left _ _, le_ratchet_right _ _⟩
  · rw [if_neg hx] at h
    dsimp only at h
    rw [Option.some.injEq] at h
    subst h
    by_cases hlock : entry + 3 * atr < v ∧
        (if slInit < v - mult * atr then v - mult * atr else slInit) < entry + atr
    · rw [if_pos hlock]
      exact ⟨le_trans (le_ratchet_left _ _) (le_of_lt hlock.2),
        le_trans (le_ratchet_right _ _) (le_of_lt hlock.2)⟩
    · rw [if_neg hlock]
      exact ⟨le_ratchet_left _ _, le_ratchet_right _ _⟩

/-- C4 counterexample: two successive evaluations of an open position with
the trailing stop enabled and positive ATR in both (entry 15, multiplier 1.5;
ATR 10 then 20, active price 14; no exit fires) take the stored stop from `0`
to `-15`: a stored stop of exactly `0` is treated as uninitialized
(`current_sl is None or current_sl == 0`) and re-initialized downward when
the ATR has grown. -/
theorem trailing_sl_drop_cex :
    check_exit_condition true (3/2) none none .buyCe 15 10
        ⟨some 14, none⟩ ⟨some 14, none⟩ ⟨some 14, none⟩ none
      = ⟨some 0, some false⟩ ∧
    check_exit_condition true (3/2) none none .buyCe 15 20
        ⟨some 14, none⟩ ⟨some 14, none⟩ ⟨some 14, none⟩ (some 0)
      = ⟨some (-15), some false⟩ ∧
    ((-15 : ℚ) < 0) := by
  refine ⟨?_, ?_, by norm_num⟩ <;>
    norm_num [check_exit_condition, trailingPhase, activeOf, oppOf]

/-- C4 (amended): with the trailing stop enabled, a positive active-leg ATR,
a positive multiplier and a present active-leg price `v`: on the first
evaluation the stop starts from `entry - mult×atr` and only moves up within
the call; with a *nonzero* stored stop `s` the stored stop never decreases
and is ratcheted to at least `v - mult×atr`; if no stop-hit occurs and `v`
exceeds `entry + 3×atr` the resulting stop is at least `entry + atr`; and the
trailing stop-loss exit fires when `v` falls below the nonzero stored stop.
(A stored stop of exactly `0` is re-initialized instead, possibly downward —
see the counterexample.) -/
theorem trailing_stop_spec (mult entry atr s v : ℚ)
    (refH refL : Option RefLvl) (side : Side) (idx ce pe : OptTick)
    (hatr : 0 < atr) (hmult : 0 < mult)
    (hact : (activeOf side ce pe).ltp = some v) :
    (∀ s', (check_exit_condition true mult refH refL side entry atr idx ce pe
        none).sl = some s' → entry - mult * atr ≤ s') ∧
    (s ≠ 0 → ∀ s',
      (check_exit_condition true mult refH refL side entry atr idx ce pe
        (some s)).sl = some s' → s ≤ s' ∧ v - mult * atr ≤ s') ∧
    (s ≠ 0 → ¬ v < s → entry + 3 * atr < v → ∀ s',
      (check_exit_condition true mult refH refL side entry atr idx ce pe
        (some s)).sl = some s' → entry + atr ≤ s') ∧
    (s ≠ 0 → v < s →
      (check_exit_condition true mult refH refL side entry atr idx ce pe
        (some s)).outcome = some true) := by
  have hslnz : ∀ hs : s ≠ 0,
      (if (some s : Option ℚ) = none ∨ some s = some 0 then entry - mult * atr
        else (some s : Option ℚ).getD 0) = s := by
    intro hs
    rw [if_neg]
    · rfl
    · simp [hs]
  refine ⟨?_, ?_, ?_, ?_⟩
  · intro s' h
    rw [check_exit_sl_eq, hact] at h
    have h2 := trailingPhase_some_ge mult entry atr v none hatr s' h
    simpa using h2.1
  · intro hs s' h
    rw [check_exit_sl_eq, hact] at h
    have h2 := trailingPhase_some_ge mult entry atr v (some s) hatr s' h
    rw [hslnz hs] at h2
    exact h2
  · intro hs hnoexit hprofit s' h
    rw [check_exit_sl_eq, hact] at h
    rw [trailingPhase_some mult entry atr v (some s) hatr] at h
    simp only [hslnz hs] at h
    have hmulatr : 0 < mult * atr := mul_pos hmult hatr
    by_cases hc : s < v - mult * atr
    · rw [if_pos hc] at h
      rw [if_neg (by linarith : ¬ v < v - mult * atr)] at h
      dsimp only at h
      rw [Option.some.injEq] at h
      subst h
      split
      · exact le_rfl
      · rename_i hlock
        rw [not_and_or] at hlock
        rcases hlock with hl | hl
        · exact absurd hprofit hl
        · exact le_of_not_lt hl
    · rw [if_neg hc] at h
      rw [if_neg hnoexit] at h
      dsimp only at h
      rw [Option.some.injEq] at h
      subst h
      split
      · exact le_rfl
      · rename_i hlock
        rw [not_and_or] at hlock
        rcases hlock with hl | hl
        · exact absurd hprofit hl
        · exact le_of_not_lt hl
  · intro hs hlt
    have hup : (if s < v - mult * atr then v - mult * atr else s) = s := by
      rw [if_neg]
      intro hcon
      have : 0 < mult * atr := mul_pos hmult hatr
      linarith
    have hph : trailingPhase true mult entry atr
        ((activeOf side ce pe).ltp) (some s) = (some s, some (some true)) := by
      rw [hact, trailingPhase_some mult entry atr v (some s) hatr]
      simp only [hslnz hs, hup]
      rw [if_pos hlt]
    have := check_exit_of_early true mult refH refL side entry atr idx ce pe
      (some s) (some s) (some true) hph
    rw [this]

/-- Witness for `trailing_stop_spec`: entry 15, multiplier 1.5, ATR 2, price
14, stored stop 13 — the stop stays at 13 and the ratchet bound holds. -/
theorem trailing_stop_spec_witness :
    (check_exit_condition true (3/2) none none .buyCe 15 2
        ⟨some 14, none⟩ ⟨some 14, none⟩ ⟨some 14, none⟩ (some 13)).sl = some 13 ∧
    (13 : ℚ) ≤ 13 ∧ (14 : ℚ) - (3/2) * 2 ≤ 13 := by
  have hsl : (check_exit_condition true (3/2) none none .buyCe 15 2
      ⟨some 14, none⟩ ⟨some 14, none⟩ ⟨some 14, none⟩ (some 13)).sl = some 13 := by
    norm_num [check_exit_condition, trailingPhase, activeOf, oppOf,
      Option.some_ne_none]
  have h := (trailing_stop_spec (3/2) 15 2 13 14 none none .buyCe
      ⟨some 14, none⟩ ⟨some 14, none⟩ ⟨some 14, none⟩
      (by norm_num) (by norm_num) rfl).2.1 (by norm_num) 13 hsl
  exact ⟨hsl, h.1, h.2⟩

/-- C9: while a position is OPEN, a cycle in which the active leg's latest
price is absent or not positive performs no exit: the position record —
open/closed status, realized PnL and all — is returned unchanged (the exit
either is not confirmed or is confirmed but gated on `exit_price > 0`); and
on a cycle with a valid positive price, the position closes exactly when
`check_exit_condition` reports an exit. -/
theorem zero_price_no_exit (slT : Bool) (mult slip comm fixed : ℚ)
    (refH refL : Option RefLvl) (pos : Position) (atr : ℚ)
    (idx ce pe : OptTick) (engineSl : Option ℚ)
    (hopen : pos.statusOpen = true) :
    ((activeOf pos.side ce pe).ltp.getD 0 ≤ 0 →
      (exitCycle slT mult slip comm fixed refH refL pos atr idx ce pe
        engineSl).1 = pos) ∧
    (∀ v, (activeOf pos.side ce pe).ltp = some v → 0 < v →
      ((exitCycle slT mult slip comm fixed refH refL pos atr idx ce pe
          engineSl).1.statusOpen = false ↔
        (check_exit_condition slT mult refH refL pos.side pos.entry atr idx ce
          pe engineSl).outcome = some true)) := by
  constructor
  · intro hz
    simp only [exitCycle]
    rcases ho : (check_exit_condition slT mult refH refL pos.side pos.entry atr
        idx ce pe engineSl).outcome with _ | b
    · rfl
    · rcases b with _ | _
      · rfl
      · rw [if_neg (not_lt.mpr hz)]
  · intro v hv hvpos
    simp only [exitCycle]
    rcases ho : (check_exit_condition slT mult refH refL pos.side pos.entry atr
        idx ce pe engineSl).outcome with _ | b
    · simp [hopen]
    · rcases b with _ | _
      · simp [hopen]
      · rw [hv]
        simp only [Option.getD_some]
        rw [if_pos hvpos]
        simp

/-- Witness for `zero_price_no_exit`: an open BUY_CE position whose CE leg
reports price 0 survives the cycle untouched even though the hard stop
condition (0 < 80% of entry) reports an exit. -/
theorem zero_price_no_exit_witness :
    (exitCycle false 0 0 0 0 none none ⟨.buyCe, 100, 1, true, none⟩ 0
      ⟨some 0, none⟩ ⟨some 0, none⟩ ⟨some 0, none⟩ none).1
      = ⟨.buyCe, 100, 1, true, none⟩ := by
  exact (zero_price_no_exit false 0 0 0 0 none none ⟨.buyCe, 100, 1, true, none⟩
    0 ⟨some 0, none⟩ ⟨some 0, none⟩ ⟨some 0, none⟩ none rfl).1 (by norm_num [activeOf])

/-- C1 counterexample: on `c1cex` the pullback highs are 110, 120, 115 — not
monotonically decreasing (`p.high = 120 > pp.high = 110`), so the claim's
strict 3-candle monotonic pullback fails on both sides and the claim says no
swing is emitted; the window deviation exceeds the ATR threshold and
`StrategyEngine.identify_swing` nevertheless confirms a High wall, because
the source compares `p.high` against `ppp.high` instead of `pp.high`. -/
theorem identify_swing_nonmonotonic_cex :
    identify_swing c1cex = some ⟨SwingTy.High, 140⟩ ∧
    ¬ specHighPullback c1cex ∧ ¬ specLowPullback c1cex ∧
    (if 0 < calculate_atr c1cex then calculate_atr c1cex * (12/10) else 5)
      < qabs (listMax ((lastN 15 c1cex).map (·.h))
          - ((lastN 15 c1cex).headD default).o) := by
  refine ⟨?_, ?_, ?_, ?_⟩ <;>
    norm_num [identify_swing, calculate_atr, trList, trueRange, qmax, qmin,
      qabs, lastN, listMax, listMin, c1cex, flatC, specHighPullback,
      specLowPullback]

/-- C1 (amended): for every window of at least 15 index candles whose max
high or min low deviates from the window's opening price by more than
`threshold = ATR(14) × 1.2` (fallback 5 when ATR is 0), the detector
confirms a High at the window max iff `ppp.high` equals the window max,
`pp.high < ppp.high`, `p.high < ppp.high` (against the peak, not `pp`) and
`c.high < p.high`; a Low at the window min iff the mirrored condition on
lows holds *and* the High condition does not (High is checked first); and
no swing is emitted iff neither condition holds. -/
theorem identify_swing_spec (candles : List Candle) (hlen : 15 ≤ candles.length)
    (hdev :
      (if 0 < calculate_atr candles then calculate_atr candles * (12/10) else 5)
          < qabs (listMax ((lastN 15 candles).map (·.h))
              - ((lastN 15 candles).headD default).o) ∨
      (if 0 < calculate_atr candles then calculate_atr candles * (12/10) else 5)
          < qabs (listMin ((lastN 15 candles).map (·.l))
              - ((lastN 15 candles).headD default).o)) :
    (identify_swing candles
        = some ⟨.High, listMax ((lastN 15 candles).map (·.h))⟩
      ↔ codeHighPat candles) ∧
    (identify_swing candles
        = some ⟨.Low, listMin ((lastN 15 candles).map (·.l))⟩
      ↔ codeLowPat candles ∧ ¬ codeHighPat candles) ∧
    (identify_swing candles = none
      ↔ ¬ codeHighPat candles ∧ ¬ codeLowPat candles) := by
  simp only [identify_swing]
  rw [if_neg (by omega : ¬ candles.length < 15)]
  rw [if_neg (by
    rintro ⟨hc1, hc2⟩
    rcases hdev with h | h
    · exact absurd hc1 (not_lt.mpr (le_of_lt h))
    · exact absurd hc2 (not_lt.mpr (le_of_lt h)))]
  by_cases hH : codeHighPat candles
  · simp only [codeHighPat] at hH
    rw [if_pos hH]
    refine ⟨iff_of_true rfl (by simpa [codeHighPat] using hH),
      iff_of_false ?_ ?_, iff_of_false ?_ ?_⟩
    · intro hcon
      simp at hcon
    · intro hcon
      exact hcon.2 (by simpa [codeHighPat] using hH)
    · intro hcon
      simp at hcon
    · intro hcon
      exact hcon.1 (by simpa [codeHighPat] using hH)
  · have hH' := hH
    simp only [codeHighPat] at hH'
    rw [if_neg hH']
    by_cases hL : codeLowPat candles
    · simp only [codeLowPat] at hL
      rw [if_pos hL]
      refine ⟨iff_of_false ?_ hH, iff_of_true rfl ?_, iff_of_false ?_ ?_⟩
      · intro hcon
        simp at hcon
      · exact ⟨by simpa [codeLowPat] using hL, hH⟩
      · intro hcon
        simp at hcon
      · intro hcon
        exact hcon.2 (by simpa [codeLowPat] using hL)
    · have hL' := hL
      simp only [codeLowPat] at hL'
      rw [if_neg hL']
      refine ⟨iff_of_false ?_ hH, iff_of_false ?_ ?_, iff_of_true rfl ⟨hH, hL⟩⟩
      · intro hcon
        simp at hcon
      · intro hcon
        simp at hcon
      · intro hcon
        exact hL hcon.1

/-- Witness for `identify_swing_spec`: a clean 40-point spike with a strictly
monotonic 3-candle pullback against threshold ≈ 20.57 yields a High wall at
140. -/
theorem identify_swing_spec_witness :
    identify_swing c1good = some ⟨SwingTy.High, 140⟩ := by
  have hmax : listMax ((lastN 15 c1good).map (·.h)) = 140 := by
    norm_num [lastN, listMax, qmax, c1good, flatC]
  have h := (identify_swing_spec c1good (by norm_num [c1good, flatC])
      (Or.inl (by
        norm_num [calculate_atr, trList, trueRange, lastN, listMax, qmax,
          qabs, c1good, flatC]))).1.mpr
      (by norm_num [codeHighPat, lastN, listMax, qmax, c1good, flatC])
  rw [hmax] at h
  exact h

/-- C2: whenever the analyzer confirms a swing, the overwritten reference
level freezes the *peak row* `ppp` — the 4th-last candle, which carries the
window extreme — storing its extreme index price together with the
contemporaneous CE and PE closes of that same candle (not the closes at the
confirmation candle); the opposite-kind level is untouched. -/
theorem ref_level_freezes_extreme (st : AState) (subset : List Row)
    (ty : SwingTy) (ppp : Row)
    (hsw : identifySwingA subset = some (ty, ppp)) :
    ppp = (lastN 4 subset).headD default ∧
    (ty = .High →
      ppp.hIdx = listMax ((lastN 15 subset).map (·.hIdx)) ∧
      (updateRefs st subset).refH = some ⟨ppp.hIdx, ppp.cCe, ppp.cPe, ppp.ts⟩ ∧
      (updateRefs st subset).refL = st.refL) ∧
    (ty = .Low →
      ppp.lIdx = listMin ((lastN 15 subset).map (·.lIdx)) ∧
      (updateRefs st subset).refL = some ⟨ppp.lIdx, ppp.cCe, ppp.cPe, ppp.ts⟩ ∧
      (updateRefs st subset).refH = st.refH) := by
  have hupd : updateRefs st subset =
      match identifySwingA subset with
      | some (ty', ppp') =>
          let lvl : ARefLevel :=
            ⟨if ty' = .High then ppp'.hIdx else ppp'.lIdx, ppp'.cCe, ppp'.cPe,
              ppp'.ts⟩
          match ty' with
          | .High => { st with refH := some lvl }
          | .Low => { st with refL := some lvl }
      | none => st := rfl
  rw [hsw] at hupd
  have hsw' := hsw
  simp only [identifySwingA] at hsw'
  split at hsw'
  · exact absurd hsw' (by simp)
  · generalize (if 0 < analyzerAtr subset then analyzerAtr subset * (15/10)
      else (5:ℚ)) = thr at hsw'
    split at hsw'
    · exact absurd hsw' (by simp)
    · split at hsw'
      · rename_i hcondH
        rw [Option.some.injEq, Prod.mk.injEq] at hsw'
        obtain ⟨hty, hppp⟩ := hsw'
        subst hppp
        subst hty
        refine ⟨by simp, ?_, fun hlow => absurd hlow (by simp)⟩
        intro _
        refine ⟨by simpa using hcondH.1, ?_, ?_⟩
        · simp [hupd]
        · simp [hupd]
      · split at hsw'
        · rename_i hcondL
          rw [Option.some.injEq, Prod.mk.injEq] at hsw'
          obtain ⟨hty, hppp⟩ := hsw'
          subst hppp
          subst hty
          refine ⟨by simp, fun hhigh => absurd hhigh (by simp), ?_⟩
          intro _
          refine ⟨by simpa using hcondL.1, ?_, ?_⟩
          · simp [hupd]
          · simp [hupd]
        · exact absurd hsw' (by simp)

/-- Witness for `ref_level_freezes_extreme`: the 15-row stream `c2rows`
confirms a High wall at the spike row (index high 140, CE close 52, PE close
68, timestamp 660), and the stored level carries exactly those values. -/
theorem ref_level_freezes_extreme_witness :
    (updateRefs ⟨none, none, [], []⟩ c2rows).refH = some ⟨140, 52, 68, 660⟩ ∧
    (updateRefs ⟨none, none, [], []⟩ c2rows).refL = none := by
  have hsw : identifySwingA c2rows = some (.High, spikeR 660 140 52 68) := by
    norm_num [identifySwingA, analyzerAtr, trRowsAux, trueRange, qmax, qmin,
      qabs, lastN, listMax, listMin, c2rows, flatR, spikeR]
  have h := (ref_level_freezes_extreme ⟨none, none, [], []⟩ c2rows .High
    (spikeR 660 140 52 68) hsw).2.1 rfl
  refine ⟨?_, h.2.2⟩
  rw [h.2.1]
  norm_num [spikeR]

/-- Helper: the propositional cooldown invariant implies the Boolean
check. -/
theorem cooldownOK_of_inv (sigs : List Sig) (h : CooldownInv sigs) :
    cooldownOK sigs = true := by
  unfold cooldownOK
  rw [List.all_eq_true]
  intro j hj
  rw [List.all_eq_true]
  intro i hi
  rw [List.mem_range] at hj hi
  rw [Bool.or_eq_true]
  by_cases hw : j ≤ i + 3
  · right
    exact decide_eq_true (h i j hi hw hj)
  · left
    simp [hw]

/-- Helper: appending a signal that passes the cooldown veto preserves the
invariant. -/
theorem cooldownInv_append (sigs : List Sig) (s : Sig)
    (hinv : CooldownInv sigs) (hcd : cooldownPassed sigs s.time = true) :
    CooldownInv (sigs ++ [s]) := by
  intro i j hij hw hj
  rw [List.length_append, List.length_cons, List.length_nil] at hj
  by_cases hjl : j < sigs.length
  · rw [List.getD_append _ _ _ _ hjl, List.getD_append _ _ _ _ (lt_trans hij hjl)]
    exact hinv i j hij hw hjl
  · have hjeq : j = sigs.length := by omega
    subst hjeq
    have hil : i < sigs.length := hij
    rw [List.getD_append _ _ _ _ hil]
    have hgetj : (sigs ++ [s]).getD sigs.length default = s := by
      rw [List.getD_eq_getElem?_getD, List.getElem?_append_right (le_refl _)]
      simp
    rw [hgetj]
    unfold cooldownPassed at hcd
    rw [List.all_eq_true] at hcd
    have hmem : sigs.getD i default ∈ lastN 3 sigs := by
      have hlen3 : (lastN 3 sigs).length = sigs.length - (sigs.length - 3) := by
        simp only [lastN, List.length_drop]
      have hlt : i - (sigs.length - 3) < (lastN 3 sigs).length := by
        rw [hlen3]
        omega
      have hsame : (lastN 3 sigs).getD (i - (sigs.length - 3)) default
          = sigs.getD i default := by
        simp only [lastN]
        rw [List.getD_eq_getElem?_getD, List.getElem?_drop,
          List.getD_eq_getElem?_getD]
        have harg : sigs.length - 3 + (i - (sigs.length - 3)) = i := by omega
        rw [harg]
      rw [← hsame, List.getD_eq_getElem _ _ hlt]
      exact List.getElem_mem hlt
    exact of_decide_eq_true (hcd _ hmem)

/-- Helper: the bullish trigger either leaves the signal list unchanged or
appends exactly one signal after passing the cooldown veto on the current
list. -/
theorem bullTrigger_sigs_spec (cfg : AConfig) (st : AState) (subset : List Row)
    (cur : Row) (rh : ARefLevel) :
    (bullTrigger cfg st subset cur rh).sigs = st.sigs ∨
    ∃ s : Sig, cooldownPassed st.sigs s.time = true ∧
      (bullTrigger cfg st subset cur rh).sigs = st.sigs ++ [s] := by
  unfold bullTrigger
  by_cases hcond : bullTriggerCond cfg subset cur rh st.sigs st.seen = true
  · rw [if_pos hcond]
    right
    refine ⟨_, ?_, rfl⟩
    simp only [bullTriggerCond, Bool.and_eq_true] at hcond
    exact hcond.2.1.2
  · rw [if_neg hcond]
    left
    rfl

/-- Helper: the bearish trigger obeys the same append discipline. -/
theorem bearTrigger_sigs_spec (cfg : AConfig) (st : AState) (subset : List Row)
    (cur : Row) (rl : ARefLevel) :
    (bearTrigger cfg st subset cur rl).sigs = st.sigs ∨
    ∃ s : Sig, cooldownPassed st.sigs s.time = true ∧
      (bearTrigger cfg st subset cur rl).sigs = st.sigs ++ [s] := by
  unfold bearTrigger
  by_cases hcond : bearTriggerCond cfg subset cur rl st.sigs st.seen = true
  · rw [if_pos hcond]
    right
    refine ⟨_, ?_, rfl⟩
    simp only [bearTriggerCond, Bool.and_eq_true] at hcond
    exact hcond.2.1.2
  · rw [if_neg hcond]
    left
    rfl

/-- Helper: a reference-level update never touches the signal list. -/
theorem updateRefs_sigs (st : AState) (subset : List Row) :
    (updateRefs st subset).sigs = st.sigs := by
  unfold updateRefs
  rcases identifySwingA subset with _ | ⟨ty, ppp⟩
  · rfl
  · rcases ty <;> rfl

/-- Helper: the bearish half of a loop iteration obeys the append
discipline. -/
theorem bearBlock_sigs_spec (cfg : AConfig) (st : AState) (subset : List Row)
    (cur : Row) (exhThr : ℚ) :
    (bearBlock cfg st subset cur exhThr).sigs = st.sigs ∨
    ∃ s : Sig, cooldownPassed st.sigs s.time = true ∧
      (bearBlock cfg st subset cur exhThr).sigs = st.sigs ++ [s] := by
  unfold bearBlock
  split
  · split
    · left
      rfl
    · split
      · left
        rfl
      · exact bearTrigger_sigs_spec cfg st subset cur _
  · left
    rfl

/-- Helper: one iteration of the analyzer loop preserves the cooldown
invariant — every signal append is guarded by the cooldown veto. -/
theorem analyzeStep_inv (cfg : AConfig) (rows : List Row) (st : AState)
    (i : ℕ) (h : CooldownInv st.sigs) :
    CooldownInv (analyzeStep cfg rows st i).sigs := by
  have hstep : ∀ st' : AState, CooldownInv st'.sigs → ∀ st'' : AState,
      (st''.sigs = st'.sigs ∨ ∃ s : Sig, cooldownPassed st'.sigs s.time = true ∧
        st''.sigs = st'.sigs ++ [s]) →
      CooldownInv st''.sigs := by
    rintro st' hinv st'' (heq | ⟨s, hcd, heq⟩)
    · rw [heq]
      exact hinv
    · rw [heq]
      exact cooldownInv_append _ _ hinv hcd
  have h1 : CooldownInv (updateRefs st (rows.take (i + 1))).sigs := by
    rw [updateRefs_sigs]
    exact h
  unfold analyzeStep
  repeat
    first
    | exact h
    | exact h1
    | exact hstep _ h1 _ (bearBlock_sigs_spec _ _ _ _ _)
    | exact hstep _ (hstep _ h1 _ (bullTrigger_sigs_spec _ _ _ _ _)) _
        (bearBlock_sigs_spec _ _ _ _ _)
    | split
    | dsimp only

/-- C6: the cooldown veto holds on every signal list the analyzer can emit:
whenever a signal is appended while an earlier one is still among the last
three (list distance at most 3), more than 900 seconds separate their
timestamps — in particular, after a signal at t = 1000 no further signal for
that index can appear at any t ≤ 1900. -/
theorem analyze_cooldown (cfg : AConfig) (rows : List Row)
    (refH0 refL0 : Option ARefLevel) :
    cooldownOK (analyzeRows cfg rows refH0 refL0).sigs = true := by
  apply cooldownOK_of_inv
  unfold analyzeRows
  have hgen : ∀ (l : List ℕ) (st : AState), CooldownInv st.sigs →
      CooldownInv (l.foldl (analyzeStep cfg rows) st).sigs := by
    intro l
    induction l with
    | nil => exact fun st h => h
    | cons x xs ih => exact fun st h => ih _ (analyzeStep_inv cfg rows st x h)
  apply hgen
  intro i j hij hw hj
  exact absurd hj (by simp)

end Engine
